import Mathlib

/-!
Shallow embedding of the URL-shortening service
(`src/application/services/UrlServiceImpl.ts`, the Prisma-backed
repository `PrismaUrlRepository.ts`, and the HTTP controller
`UrlController.ts`) together with proofs of the specified properties.

The database is modelled as an explicit in-memory store threaded through
every operation; every service operation additionally returns the trace
of repository calls it performed, so that claims of the form "method X is
never invoked" are directly statable.
-/

namespace ShortUrl

/-- The `Url` entity (Prisma model backed by the `urls` table of the
migration: `id`, `short_code` unique, `long_url`, `clicks` default 0,
`created_at`, `updated_at`).  Timestamps and the generated id are
modelled as natural numbers drawn from a logical clock / counter in the
store. -/
structure Url where
  id : Nat
  shortCode : String
  longUrl : String
  clicks : Nat
  createdAt : Nat
  updatedAt : Nat
deriving Repr, DecidableEq

/-- The persistent state behind the Prisma client: the rows of the
`urls` table (in insertion order), the id generator, and a logical clock
supplying `created_at` / `updated_at` timestamps. -/
structure Store where
  urls : List Url
  nextId : Nat
  now : Nat
deriving Repr, DecidableEq

/-- Errors thrown by the service / repository.  The TypeScript code
throws plain `Error` objects; the constructor records which one, and
`errorMessage` recovers the message string used at the HTTP boundary.
`storeError` stands for an opaque failure of the underlying store
(database down, constraint violation surfaced by Prisma, ...). -/
inductive UrlError where
  | invalidUrl
  | duplicateCode
  | generationExhausted
  | storeNotFound
  | storeError (message : String)
deriving Repr, DecidableEq

/-- The message carried by each thrown `Error` in the source. -/
def errorMessage : UrlError → String
  | .invalidUrl => "Invalid URL provided"
  | .duplicateCode => "Custom code already exists"
  | .generationExhausted => "Failed to generate unique short code"
  | .storeNotFound => "Record to update not found."
  | .storeError m => m

/-- One observable call to a `UrlRepository` method; service operations
return the list of calls they made, in order. -/
inductive RepoOp where
  | create (longUrl shortCode : String)
  | findByShortCode (shortCode : String)
  | incrementClicks (shortCode : String)
  | findAll
deriving Repr, DecidableEq

/-! ## Repository (`PrismaUrlRepository.ts` over the `urls` table) -/

/-- `findByShortCode`: `prisma.url.findUnique({ where: { shortCode } })`.
A point lookup; `none` is a valid non-error outcome. -/
def repoFindByShortCode (s : Store) (shortCode : String) : Option Url :=
  s.urls.find? (fun u => u.shortCode = shortCode)

/-- The row inserted by a successful `create` on store `s`: generated
id, `clicks` defaulting to 0, both timestamps set to the insert time. -/
def newUrl (s : Store) (longUrl shortCode : String) : Url :=
  { id := s.nextId, shortCode := shortCode, longUrl := longUrl,
    clicks := 0, createdAt := s.now, updatedAt := s.now }

/-- The store after a successful `create`: the row is appended and the
id / clock counters advance. -/
def afterCreate (s : Store) (longUrl shortCode : String) : Store :=
  { urls := s.urls ++ [newUrl s longUrl shortCode],
    nextId := s.nextId + 1, now := s.now + 1 }

/-- `create`: `prisma.url.create({ data: { longUrl, shortCode } })`.
The unique index on `short_code` makes the insert fail if the code is
already present; otherwise a fresh row is appended with `clicks = 0` and
both timestamps set to the current time. -/
def repoCreate (s : Store) (longUrl shortCode : String) :
    Except UrlError (Url × Store) :=
  if (repoFindByShortCode s shortCode).isSome then
    .error (.storeError "Unique constraint failed on the fields: (`shortCode`)")
  else
    .ok (newUrl s longUrl shortCode, afterCreate s longUrl shortCode)

/-- `incrementClicks`: `prisma.url.update({ where: { shortCode },
data: { clicks: { increment: 1 } } })`.  Prisma's `update` throws when
no record matches; otherwise the matching row's `clicks` is incremented
and its `updated_at` refreshed. -/
def repoIncrementClicks (s : Store) (shortCode : String) :
    Except UrlError Store :=
  if (repoFindByShortCode s shortCode).isSome then
    .ok { s with
          urls := s.urls.map (fun u =>
            if u.shortCode = shortCode then
              { u with clicks := u.clicks + 1, updatedAt := s.now }
            else u),
          now := s.now + 1 }
  else .error .storeNotFound

/-- The descending-`createdAt` order used by `findAll`
(`orderBy: { createdAt: 'desc' }`). -/
def createdAtDesc (a b : Url) : Prop := b.createdAt ≤ a.createdAt

instance : DecidableRel createdAtDesc := fun a b =>
  inferInstanceAs (Decidable (b.createdAt ≤ a.createdAt))

instance : IsTotal Url createdAtDesc :=
  ⟨fun a b => (Nat.le_total b.createdAt a.createdAt).imp id id⟩

instance : IsTrans Url createdAtDesc :=
  ⟨fun _ _ _ hab hbc => Nat.le_trans hbc hab⟩

/-- `findAll`: `prisma.url.findMany({ orderBy: { createdAt: 'desc' } })`.
The database returns every row, sorted by `created_at` descending. -/
def repoFindAll (s : Store) : List Url :=
  s.urls.insertionSort createdAtDesc

/-! ## nanoid (external dependency `nanoid`, called as `nanoid(8)`)

Model of the `nanoid` package's default generator: it draws `size`
random bytes and maps each byte `b` to `urlAlphabet[b & 63]`, appending
characters from the last byte down to the first.  The default
`urlAlphabet` is the 64-symbol URL-safe alphabet `A-Za-z0-9_-` (stored
scrambled in the library source).  Randomness is modelled as an explicit
byte stream `bytes : Nat → Nat`. -/
def urlAlphabet : String :=
  "useandom-26T198340PX75pxJACKVERYMINDBUSHWOLF_GQZbfghjklqvwyzrict"

def nanoidChar (b : Nat) : Char :=
  urlAlphabet.toList.getD (b % 64) 'u'

def nanoid (size : Nat) (bytes : Nat → Nat) : String :=
  String.mk ((List.range size).map (fun i => nanoidChar (bytes (size - 1 - i))))

/-! ## Service (`UrlServiceImpl.ts`)

The service closure captures the repository and a base URL.  The random
source is `rng : Nat → Nat → Nat`: generation attempt `n` uses the byte
stream `rng n`.  The external `validator.isURL` check is a parameter
`isURL : String → Bool` of `createShortUrl`. -/

/-- `CreateUrlResponse` of the domain service interface. -/
structure CreateUrlResponse where
  shortUrl : String
  longUrl : String
  shortCode : String
deriving Repr, DecidableEq

/-- `generateUniqueCode(attempt = 0)`: fails once `attempt >= 5`,
otherwise draws `nanoid(8)`, looks it up, and recurses on collision. -/
def generateUniqueCode (s : Store) (rng : Nat → Nat → Nat) (attempt : Nat) :
    Except UrlError String × List RepoOp :=
  if attempt ≥ 5 then
    (.error .generationExhausted, [])
  else
    let shortCode := nanoid 8 (rng attempt)
    match repoFindByShortCode s shortCode with
    | some _ =>
        let r := generateUniqueCode s rng (attempt + 1)
        (r.1, .findByShortCode shortCode :: r.2)
    | none => (.ok shortCode, [.findByShortCode shortCode])
termination_by 5 - attempt
decreasing_by omega

/-- `generateShortCode(customCode?)`: a truthy `customCode` (present and
non-empty, by JavaScript string truthiness) is checked for duplication
and used verbatim; otherwise `generateUniqueCode()` runs. -/
def generateShortCode (s : Store) (rng : Nat → Nat → Nat)
    (customCode : Option String) : Except UrlError String × List RepoOp :=
  match customCode with
  | some c =>
      if c = "" then generateUniqueCode s rng 0
      else
        match repoFindByShortCode s c with
        | some _ => (.error .duplicateCode, [.findByShortCode c])
        | none => (.ok c, [.findByShortCode c])
  | none => generateUniqueCode s rng 0

/-- `createShortUrl(request)`: validates `longUrl` with
`validator.isURL`, assigns a short code, persists the pair, and returns
the response built from the created row.  The result is paired with the
post-state of the store and the trace of repository calls. -/
def createShortUrl (isURL : String → Bool) (baseUrl : String)
    (rng : Nat → Nat → Nat) (s : Store)
    (longUrl : String) (customCode : Option String) :
    Except UrlError CreateUrlResponse × Store × List RepoOp :=
  if !(isURL longUrl) then (.error .invalidUrl, s, [])
  else
    match generateShortCode s rng customCode with
    | (.error e, t) => (.error e, s, t)
    | (.ok shortCode, t) =>
        match repoCreate s longUrl shortCode with
        | .error e => (.error e, s, t ++ [.create longUrl shortCode])
        | .ok (u, s') =>
            (.ok { shortUrl := baseUrl ++ "/" ++ shortCode,
                   longUrl := u.longUrl, shortCode := u.shortCode },
             s', t ++ [.create longUrl shortCode])

/-- `getLongUrl(shortCode)`: looks the code up; absent yields `null`
with no further store call; present increments the click counter and
returns the `longUrl` read before the increment. -/
def getLongUrl (s : Store) (shortCode : String) :
    Except UrlError (Option String) × Store × List RepoOp :=
  match repoFindByShortCode s shortCode with
  | none => (.ok none, s, [.findByShortCode shortCode])
  | some url =>
      match repoIncrementClicks s shortCode with
      | .error e =>
          (.error e, s, [.findByShortCode shortCode, .incrementClicks shortCode])
      | .ok s' =>
          (.ok (some url.longUrl), s',
           [.findByShortCode shortCode, .incrementClicks shortCode])

/-- `getUrlStats(shortCode)`: pass-through to `findByShortCode`. -/
def getUrlStats (s : Store) (shortCode : String) :
    Option Url × Store × List RepoOp :=
  (repoFindByShortCode s shortCode, s, [.findByShortCode shortCode])

/-- `getAllUrls()`: pass-through to `findAll`. -/
def getAllUrls (s : Store) : List Url × Store × List RepoOp :=
  (repoFindAll s, s, [.findAll])

/-! ## HTTP controller (`UrlController.ts`)

The controller is written against the `UrlService` interface (its unit
tests exercise it with a mocked service), so it is embedded as a pure
function of the request fields and of the outcome of the one service
call it makes; a rejected service promise is the `Except.error` case.
`Option String` request fields model absent JSON fields / route
parameters, and JavaScript string truthiness (`!x`, `x && ...`) treats
`some ""` like `none`. -/

/-- An HTTP response produced by a controller method. -/
inductive HttpResponse where
  | jsonCreate (status : Nat) (body : CreateUrlResponse)
  | jsonUrl (status : Nat) (body : Url)
  | jsonUrls (status : Nat) (body : List Url)
  | jsonError (status : Nat) (error : String)
  | redirect (location : String)
deriving Repr, DecidableEq

/-- The status code of a response (`res.redirect` defaults to 302). -/
def HttpResponse.status : HttpResponse → Nat
  | .jsonCreate s _ => s
  | .jsonUrl s _ => s
  | .jsonUrls s _ => s
  | .jsonError s _ => s
  | .redirect _ => 302

/-- `...(customCode && { customCode })`: the spread contributes the
field only when `customCode` is truthy. -/
def truthy : Option String → Option String
  | some c => if c = "" then none else some c
  | none => none

/-- `POST /api/urls` controller: 400 when `longUrl` is falsy; otherwise
calls the service (forwarding `customCode` only when truthy), answers
201 with the result, and maps ANY rejection to 400 carrying the error's
message. -/
def controllerCreateShortUrl (longUrl customCode : Option String)
    (service : String → Option String → Except UrlError CreateUrlResponse) :
    HttpResponse :=
  match longUrl with
  | none => .jsonError 400 "longUrl is required"
  | some l =>
      if l = "" then .jsonError 400 "longUrl is required"
      else
        match service l (truthy customCode) with
        | .ok r => .jsonCreate 201 r
        | .error e => .jsonError 400 (errorMessage e)

/-- `GET /:shortCode` controller: 400 when the parameter is falsy,
404 when the service resolves to `null`, a redirect on success, and 500
with a generic message on any rejection. -/
def controllerRedirectToLongUrl (shortCode : Option String)
    (service : String → Except UrlError (Option String)) : HttpResponse :=
  match shortCode with
  | none => .jsonError 400 "shortCode is required"
  | some c =>
      if c = "" then .jsonError 400 "shortCode is required"
      else
        match service c with
        | .error _ => .jsonError 500 "Internal server error"
        | .ok none => .jsonError 404 "Short URL not found"
        | .ok (some longUrl) => .redirect longUrl

/-- `GET /api/urls/:shortCode/stats` controller: 400 when the parameter
is falsy, 404 when the record is absent, 200 with the record otherwise,
and 500 with a generic message on any rejection. -/
def controllerGetUrlStats (shortCode : Option String)
    (service : String → Except UrlError (Option Url)) : HttpResponse :=
  match shortCode with
  | none => .jsonError 400 "shortCode is required"
  | some c =>
      if c = "" then .jsonError 400 "shortCode is required"
      else
        match service c with
        | .error _ => .jsonError 500 "Internal server error"
        | .ok none => .jsonError 404 "Short URL not found"
        | .ok (some url) => .jsonUrl 200 url

/-- `GET /api/urls` controller: 200 with the list on success, 500 with
a generic message on any rejection. -/
def controllerGetAllUrls
    (service : Unit → Except UrlError (List Url)) : HttpResponse :=
  match service () with
  | .error _ => .jsonError 500 "Internal server error"
  | .ok urls => .jsonUrls 200 urls

/-! ## Model of the external `validator.isURL` check

`validator.isURL` is the npm `validator` package with default options:
the protocol (`http` / `https` / `ftp`) is optional, and the host must
be a fully-qualified domain name, which with the default `require_tld`
needs at least one dot separating non-empty alphanumeric-or-hyphen
labels.  Only the fragment of the check needed for the concrete inputs
appearing below is modelled; the service theorems themselves are
parametric in the validator. -/
def isFqdnLabel (l : List Char) : Bool :=
  !l.isEmpty && l.all (fun ch => ch.isAlphanum || ch = '-')

/-- Strip an expected leading character sequence, or fail. -/
def stripLeading : List Char → List Char → Option (List Char)
  | [], cs => some cs
  | _ :: _, [] => none
  | p :: ps, c :: cs => if c = p then stripLeading ps cs else none

def isURLModel (s : String) : Bool :=
  let cs := s.toList
  let rest :=
    match stripLeading "http://".toList cs with
    | some r => r
    | none =>
        match stripLeading "https://".toList cs with
        | some r => r
        | none =>
            match stripLeading "ftp://".toList cs with
            | some r => r
            | none => cs
  let host := rest.takeWhile (fun ch => ch ≠ '/' && ch ≠ '?' && ch ≠ '#')
  let labels := host.splitOn '.'
  decide (labels.length ≥ 2) && labels.all isFqdnLabel

/-! ## Concrete fixtures used to instantiate the theorems -/

/-- A store with no records. -/
def emptyStore : Store := { urls := [], nextId := 0, now := 0 }

/-- The record used by the repository unit-test fixtures. -/
def demoUrl : Url :=
  { id := 0, shortCode := "abc123", longUrl := "https://example.com",
    clicks := 0, createdAt := 0, updatedAt := 0 }

/-- A store holding exactly `demoUrl`. -/
def demoStore : Store := { urls := [demoUrl], nextId := 1, now := 1 }

/-- A degenerate random source: every attempt draws the zero byte
stream, so `nanoid 8` yields `"uuuuuuuu"`. -/
def zeroRng : Nat → Nat → Nat := fun _ _ => 0

/-! ## Basic facts about `nanoid` -/

theorem urlAlphabet_length : urlAlphabet.toList.length = 64 := by decide

theorem nanoidChar_mem (b : Nat) : nanoidChar b ∈ urlAlphabet.toList := by
  unfold nanoidChar
  have hlt : b % 64 < urlAlphabet.toList.length := by
    rw [urlAlphabet_length]; exact Nat.mod_lt _ (by norm_num)
  rw [List.getD_eq_getElem urlAlphabet.toList 'u' hlt]
  exact List.getElem_mem hlt

theorem nanoid_length (size : Nat) (bytes : Nat → Nat) :
    (nanoid size bytes).length = size := by
  simp [nanoid, String.length]

theorem nanoid_chars (size : Nat) (bytes : Nat → Nat) :
    ∀ ch ∈ (nanoid size bytes).toList, ch ∈ urlAlphabet.toList := by
  intro ch hch
  have hrw : (nanoid size bytes).toList =
      (List.range size).map (fun i => nanoidChar (bytes (size - 1 - i))) := rfl
  rw [hrw] at hch
  obtain ⟨i, _, rfl⟩ := List.mem_map.mp hch
  exact nanoidChar_mem _

theorem nanoid_ne_empty (bytes : Nat → Nat) : nanoid 8 bytes ≠ "" := by
  intro h
  have := nanoid_length 8 bytes
  rw [h] at this
  simp at this

/-! ## Facts about `List.find?` under `append` and `map` -/

theorem find?_map_pres {α : Type} {p : α → Bool} {f : α → α}
    (hp : ∀ a, p (f a) = p a) :
    ∀ l : List α, (l.map f).find? p = (l.find? p).map f := by
  intro l
  induction l with
  | nil => rfl
  | cons a l ih =>
      simp only [List.map_cons, List.find?]
      rw [hp a]
      cases hpa : p a with
      | true => rfl
      | false => exact ih

theorem find?_map_skip {α : Type} {p : α → Bool} {f : α → α}
    (hp : ∀ a, p (f a) = p a) (hf : ∀ a, p a = true → f a = a) :
    ∀ l : List α, (l.map f).find? p = l.find? p := by
  intro l
  induction l with
  | nil => rfl
  | cons a l ih =>
      simp only [List.map_cons, List.find?]
      rw [hp a]
      cases hpa : p a with
      | true => rw [hf a hpa]
      | false => exact ih

/-! ## Analysis of `generateUniqueCode`

`generateUniqueCode` is defined by well-founded recursion on
`5 - attempt`, so the three conditional unfolding lemmas below drive all
further reasoning (and concrete evaluation in witnesses). -/

theorem generateUniqueCode_stop (s : Store) (rng : Nat → Nat → Nat)
    (attempt : Nat) (h : 5 ≤ attempt) :
    generateUniqueCode s rng attempt =
      (.error .generationExhausted, []) := by
  rw [generateUniqueCode]
  simp [h]

theorem generateUniqueCode_hit (s : Store) (rng : Nat → Nat → Nat)
    (attempt : Nat) (u : Url) (h : attempt < 5)
    (hf : repoFindByShortCode s (nanoid 8 (rng attempt)) = some u) :
    generateUniqueCode s rng attempt =
      ((generateUniqueCode s rng (attempt + 1)).1,
       .findByShortCode (nanoid 8 (rng attempt)) ::
         (generateUniqueCode s rng (attempt + 1)).2) := by
  rw [generateUniqueCode]
  simp [Nat.not_le.mpr h, hf]

theorem generateUniqueCode_miss (s : Store) (rng : Nat → Nat → Nat)
    (attempt : Nat) (h : attempt < 5)
    (hf : repoFindByShortCode s (nanoid 8 (rng attempt)) = none) :
    generateUniqueCode s rng attempt =
      (.ok (nanoid 8 (rng attempt)),
       [.findByShortCode (nanoid 8 (rng attempt))]) := by
  rw [generateUniqueCode]
  simp [Nat.not_le.mpr h, hf]

/-- Every successful generation returns a code that was fresh in the
store and was produced by `nanoid(8)` on one of the attempts. -/
theorem generateUniqueCode_ok_spec (s : Store) (rng : Nat → Nat → Nat) :
    ∀ attempt code, (generateUniqueCode s rng attempt).1 = .ok code →
      repoFindByShortCode s code = none ∧
      ∃ i, attempt ≤ i ∧ i < 5 ∧ code = nanoid 8 (rng i) := by
  have key : ∀ n attempt, 5 - attempt ≤ n →
      ∀ code, (generateUniqueCode s rng attempt).1 = .ok code →
        repoFindByShortCode s code = none ∧
        ∃ i, attempt ≤ i ∧ i < 5 ∧ code = nanoid 8 (rng i) := by
    intro n
    induction n with
    | zero =>
        intro attempt hn code hc
        rw [generateUniqueCode_stop s rng attempt (by omega)] at hc
        exact absurd hc (by simp)
    | succ n ih =>
        intro attempt hn code hc
        by_cases h5 : attempt < 5
        · cases hf : repoFindByShortCode s (nanoid 8 (rng attempt)) with
          | some u =>
              rw [generateUniqueCode_hit s rng attempt u h5 hf] at hc
              obtain ⟨hnone, i, hi1, hi2, hcode⟩ :=
                ih (attempt + 1) (by omega) code hc
              exact ⟨hnone, i, by omega, hi2, hcode⟩
          | none =>
              rw [generateUniqueCode_miss s rng attempt h5 hf] at hc
              simp only [Except.ok.injEq] at hc
              exact ⟨hc ▸ hf, attempt, Nat.le_refl _, h5, hc.symm⟩
        · rw [generateUniqueCode_stop s rng attempt (by omega)] at hc
          exact absurd hc (by simp)
  intro attempt code hc
  exact key (5 - attempt) attempt (Nat.le_refl _) code hc

/-- The only error `generateUniqueCode` can produce is exhaustion. -/
theorem generateUniqueCode_error_shape (s : Store) (rng : Nat → Nat → Nat) :
    ∀ attempt e, (generateUniqueCode s rng attempt).1 = .error e →
      e = .generationExhausted := by
  have key : ∀ n attempt, 5 - attempt ≤ n →
      ∀ e, (generateUniqueCode s rng attempt).1 = .error e →
        e = .generationExhausted := by
    intro n
    induction n with
    | zero =>
        intro attempt hn e hc
        rw [generateUniqueCode_stop s rng attempt (by omega)] at hc
        simpa using hc.symm
    | succ n ih =>
        intro attempt hn e hc
        by_cases h5 : attempt < 5
        · cases hf : repoFindByShortCode s (nanoid 8 (rng attempt)) with
          | some u =>
              rw [generateUniqueCode_hit s rng attempt u h5 hf] at hc
              exact ih (attempt + 1) (by omega) e hc
          | none =>
              rw [generateUniqueCode_miss s rng attempt h5 hf] at hc
              exact absurd hc (by simp)
        · rw [generateUniqueCode_stop s rng attempt (by omega)] at hc
          simpa using hc.symm
  intro attempt e hc
  exact key (5 - attempt) attempt (Nat.le_refl _) e hc

/-- Exhaustion happens exactly when every remaining attempt collides. -/
theorem generateUniqueCode_error_iff (s : Store) (rng : Nat → Nat → Nat) :
    ∀ attempt, ((generateUniqueCode s rng attempt).1 =
        .error .generationExhausted ↔
      ∀ i, attempt ≤ i → i < 5 →
        (repoFindByShortCode s (nanoid 8 (rng i))).isSome = true) := by
  have key : ∀ n attempt, 5 - attempt ≤ n →
      ((generateUniqueCode s rng attempt).1 = .error .generationExhausted ↔
        ∀ i, attempt ≤ i → i < 5 →
          (repoFindByShortCode s (nanoid 8 (rng i))).isSome = true) := by
    intro n
    induction n with
    | zero =>
        intro attempt hn
        rw [generateUniqueCode_stop s rng attempt (by omega)]
        constructor
        · intro _ i hi1 hi2
          omega
        · intro _
          rfl
    | succ n ih =>
        intro attempt hn
        by_cases h5 : attempt < 5
        · cases hf : repoFindByShortCode s (nanoid 8 (rng attempt)) with
          | some u =>
              rw [generateUniqueCode_hit s rng attempt u h5 hf]
              rw [show ((generateUniqueCode s rng (attempt + 1)).1,
                    RepoOp.findByShortCode (nanoid 8 (rng attempt)) ::
                      (generateUniqueCode s rng (attempt + 1)).2).1 =
                    (generateUniqueCode s rng (attempt + 1)).1 from rfl]
              rw [ih (attempt + 1) (by omega)]
              constructor
              · intro h i hi1 hi2
                rcases Nat.eq_or_lt_of_le hi1 with heq | hlt
                · rw [← heq, hf]
                  rfl
                · exact h i hlt hi2
              · intro h i hi1 hi2
                exact h i (by omega) hi2
          | none =>
              rw [generateUniqueCode_miss s rng attempt h5 hf]
              constructor
              · intro h
                exact absurd h (by simp)
              · intro h
                have := h attempt (Nat.le_refl _) h5
                rw [hf] at this
                exact absurd this (by simp)
        · rw [generateUniqueCode_stop s rng attempt (by omega)]
          constructor
          · intro _ i hi1 hi2
            omega
          · intro _
            rfl
  intro attempt
  exact key (5 - attempt) attempt (Nat.le_refl _)

/-- The uniqueness lookup (and hence the generator feeding it) runs at
most `5 - attempt` times. -/
theorem generateUniqueCode_ops_length (s : Store) (rng : Nat → Nat → Nat) :
    ∀ attempt, (generateUniqueCode s rng attempt).2.length ≤ 5 - attempt := by
  have key : ∀ n attempt, 5 - attempt ≤ n →
      (generateUniqueCode s rng attempt).2.length ≤ 5 - attempt := by
    intro n
    induction n with
    | zero =>
        intro attempt hn
        rw [generateUniqueCode_stop s rng attempt (by omega)]
        simp
    | succ n ih =>
        intro attempt hn
        by_cases h5 : attempt < 5
        · cases hf : repoFindByShortCode s (nanoid 8 (rng attempt)) with
          | some u =>
              rw [generateUniqueCode_hit s rng attempt u h5 hf]
              have := ih (attempt + 1) (by omega)
              simp only [List.length_cons]
              omega
          | none =>
              rw [generateUniqueCode_miss s rng attempt h5 hf]
              simp only [List.length_cons, List.length_nil]
              omega
        · rw [generateUniqueCode_stop s rng attempt (by omega)]
          simp
  intro attempt
  exact key (5 - attempt) attempt (Nat.le_refl _)

/-- Every repository call made by `generateUniqueCode` is a uniqueness
lookup on a code freshly produced by `nanoid(8)`. -/
theorem generateUniqueCode_ops_shape (s : Store) (rng : Nat → Nat → Nat) :
    ∀ attempt op, op ∈ (generateUniqueCode s rng attempt).2 →
      ∃ i, attempt ≤ i ∧ i < 5 ∧
        op = .findByShortCode (nanoid 8 (rng i)) := by
  have key : ∀ n attempt, 5 - attempt ≤ n →
      ∀ op, op ∈ (generateUniqueCode s rng attempt).2 →
        ∃ i, attempt ≤ i ∧ i < 5 ∧
          op = .findByShortCode (nanoid 8 (rng i)) := by
    intro n
    induction n with
    | zero =>
        intro attempt hn op hop
        rw [generateUniqueCode_stop s rng attempt (by omega)] at hop
        exact absurd hop (by simp)
    | succ n ih =>
        intro attempt hn op hop
        by_cases h5 : attempt < 5
        · cases hf : repoFindByShortCode s (nanoid 8 (rng attempt)) with
          | some u =>
              rw [generateUniqueCode_hit s rng attempt u h5 hf] at hop
              rcases List.mem_cons.mp hop with heq | htail
              · exact ⟨attempt, Nat.le_refl _, h5, heq⟩
              · obtain ⟨i, hi1, hi2, hi3⟩ := ih (attempt + 1) (by omega) op htail
                exact ⟨i, by omega, hi2, hi3⟩
          | none =>
              rw [generateUniqueCode_miss s rng attempt h5 hf] at hop
              rcases List.mem_cons.mp hop with heq | htail
              · exact ⟨attempt, Nat.le_refl _, h5, heq⟩
              · exact absurd htail (by simp)
        · rw [generateUniqueCode_stop s rng attempt (by omega)] at hop
          exact absurd hop (by simp)
  intro attempt op hop
  exact key (5 - attempt) attempt (Nat.le_refl _) op hop

/-- If some attempt in range would find a fresh code, generation
succeeds. -/
theorem generateUniqueCode_ok_of_fresh (s : Store) (rng : Nat → Nat → Nat)
    (attempt : Nat)
    (h : ∃ i, attempt ≤ i ∧ i < 5 ∧
      repoFindByShortCode s (nanoid 8 (rng i)) = none) :
    ∃ code, (generateUniqueCode s rng attempt).1 = .ok code := by
  cases hres : (generateUniqueCode s rng attempt).1 with
  | ok code => exact ⟨code, rfl⟩
  | error e =>
      have he : e = .generationExhausted :=
        generateUniqueCode_error_shape s rng attempt e hres
      rw [he] at hres
      have hall := (generateUniqueCode_error_iff s rng attempt).mp hres
      obtain ⟨i, hi1, hi2, hfresh⟩ := h
      have := hall i hi1 hi2
      rw [hfresh] at this
      exact absurd this (by simp)

/-! ## Claim theorems -/

/-- C4: for every input, `createShortUrl` rejects a `longUrl` failing
the URL validation with `InvalidUrlError` before any store interaction:
the store is unchanged and the trace of repository calls is empty. -/
theorem claim4_invalid_url_rejected_before_store (isURL : String → Bool)
    (baseUrl : String) (rng : Nat → Nat → Nat) (s : Store)
    (longUrl : String) (customCode : Option String)
    (h : isURL longUrl = false) :
    createShortUrl isURL baseUrl rng s longUrl customCode =
      (.error .invalidUrl, s, []) := by
  simp [createShortUrl, h]

/-- C4 witness: `validator.isURL` (modelled) rejects `"not-a-url"`, and
the service then fails with `InvalidUrlError`, leaving the store
untouched and calling no repository method. -/
theorem claim4_witness :
    isURLModel "not-a-url" = false ∧
      createShortUrl isURLModel "http://localhost:3000" zeroRng demoStore
        "not-a-url" none = (.error .invalidUrl, demoStore, []) :=
  ⟨by decide,
   claim4_invalid_url_rejected_before_store isURLModel "http://localhost:3000"
     zeroRng demoStore "not-a-url" none (by decide)⟩

/-- C9: `getUrlStats` is a plain lookup: it returns exactly
`findByShortCode`'s answer, leaves the store (hence every record, its
`clicks` and `updatedAt`) unchanged, and performs no call besides the
lookup. -/
theorem claim9_stats_is_pure_lookup (s : Store) (c : String) :
    (getUrlStats s c).1 = repoFindByShortCode s c
    ∧ (getUrlStats s c).2.1 = s
    ∧ (getUrlStats s c).2.2 = [.findByShortCode c] :=
  ⟨rfl, rfl, rfl⟩

/-- C7: `findAll` returns all stored records (a permutation of the
store's rows) ordered by `createdAt` descending, and the service's
`getAllUrls` is a pass-through to it. -/
theorem claim7_find_all_sorted_desc (s : Store) :
    getAllUrls s = (repoFindAll s, s, [.findAll])
    ∧ (repoFindAll s).Perm s.urls
    ∧ List.Sorted createdAtDesc (repoFindAll s) :=
  ⟨rfl, List.perm_insertionSort createdAtDesc s.urls,
   List.sorted_insertionSort createdAtDesc s.urls⟩

/-- C5: code generation starting at attempt 0 performs at most 5
generator draws / uniqueness lookups (every repository call in its
trace is a lookup of an attempt's `nanoid(8)` candidate, and there are
at most 5 of them), it is what the service runs when no `customCode` is
supplied, and it fails with `GenerationExhaustedError` exactly when all
5 attempts collide. -/
theorem claim5_bounded_retry_generation (s : Store) (rng : Nat → Nat → Nat) :
    generateShortCode s rng none = generateUniqueCode s rng 0
    ∧ (generateUniqueCode s rng 0).2.length ≤ 5
    ∧ (∀ op ∈ (generateUniqueCode s rng 0).2,
        ∃ i, i < 5 ∧ op = .findByShortCode (nanoid 8 (rng i)))
    ∧ ((generateUniqueCode s rng 0).1 = .error .generationExhausted ↔
        ∀ i, i < 5 →
          (repoFindByShortCode s (nanoid 8 (rng i))).isSome = true) := by
  refine ⟨rfl, generateUniqueCode_ops_length s rng 0, ?_, ?_⟩
  · intro op hop
    obtain ⟨i, -, hi5, hshape⟩ :=
      generateUniqueCode_ops_shape s rng 0 op hop
    exact ⟨i, hi5, hshape⟩
  · constructor
    · intro h i hi5
      exact (generateUniqueCode_error_iff s rng 0).mp h i (Nat.zero_le _) hi5
    · intro h
      exact (generateUniqueCode_error_iff s rng 0).mpr
        (fun i _ hi5 => h i hi5)

/-- C5 witness: on a store whose only code is `"abc123"` and a random
source always drawing `"uuuuuuuu"`, the generation trace has at most 5
entries and generation does not exhaust. -/
theorem claim5_witness :
    (generateUniqueCode demoStore zeroRng 0).2.length ≤ 5
    ∧ (generateUniqueCode demoStore zeroRng 0).1 ≠
        .error .generationExhausted := by
  refine ⟨(claim5_bounded_retry_generation demoStore zeroRng).2.1, ?_⟩
  intro h
  have := ((claim5_bounded_retry_generation demoStore zeroRng).2.2.2).mp h 0
    (by norm_num)
  rw [show repoFindByShortCode demoStore (nanoid 8 (zeroRng 0)) = none
      from rfl] at this
  exact absurd this (by simp)

/-- C6 counterexample: with a byte stream of constant `8`, the
auto-generated code is `"--------"`, whose characters are drawn from
nanoid's URL-safe alphabet but are not alphanumeric, refuting the claim
that every character of a generated code is alphanumeric. -/
theorem claim6_counterexample :
    (generateUniqueCode emptyStore (fun _ _ => 8) 0).1 = .ok "--------"
    ∧ '-' ∈ "--------".toList
    ∧ ('-').isAlphanum = false := by
  have hmiss := generateUniqueCode_miss emptyStore (fun _ _ => 8) 0
    (by norm_num) rfl
  refine ⟨?_, by decide, by decide⟩
  rw [hmiss]
  rfl

/-- C6 (amended): every auto-generated short code has the fixed length
8 and each of its characters is drawn from nanoid's default 64-symbol
URL-safe alphabet (letters, digits, hyphen and underscore). -/
theorem claim6_generated_code_shape (s : Store) (rng : Nat → Nat → Nat)
    (attempt : Nat) (code : String)
    (h : (generateUniqueCode s rng attempt).1 = .ok code) :
    code.length = 8 ∧ ∀ ch ∈ code.toList, ch ∈ urlAlphabet.toList := by
  obtain ⟨-, i, -, -, rfl⟩ := generateUniqueCode_ok_spec s rng attempt code h
  exact ⟨nanoid_length 8 _, nanoid_chars 8 _⟩

/-- C6 witness: the concrete generated code `"uuuuuuuu"` has length 8
and all its characters in the alphabet. -/
theorem claim6_witness :
    "uuuuuuuu".length = 8
    ∧ ∀ ch ∈ "uuuuuuuu".toList, ch ∈ urlAlphabet.toList := by
  have hmiss := generateUniqueCode_miss emptyStore zeroRng 0 (by norm_num) rfl
  have h : (generateUniqueCode emptyStore zeroRng 0).1 = .ok "uuuuuuuu" := by
    rw [hmiss]
    rfl
  exact claim6_generated_code_shape emptyStore zeroRng 0 "uuuuuuuu" h

/-- C3: resolving an absent code answers `none` and mutates nothing
(the trace holds the lookup only, in particular no `incrementClicks`);
resolving a present code returns the stored `longUrl`, bumps exactly
that record's `clicks` by 1 (refreshing `updatedAt`), and leaves every
other record unchanged. -/
theorem claim3_resolve_click_tracking (s : Store) (c : String) :
    (repoFindByShortCode s c = none →
      getLongUrl s c = (.ok none, s, [.findByShortCode c]))
    ∧ (∀ u, repoFindByShortCode s c = some u →
      (getLongUrl s c).1 = .ok (some u.longUrl)
      ∧ (getLongUrl s c).2.2 =
          [.findByShortCode c, .incrementClicks c]
      ∧ repoFindByShortCode (getLongUrl s c).2.1 c =
          some { u with clicks := u.clicks + 1, updatedAt := s.now }
      ∧ ∀ d, d ≠ c →
          repoFindByShortCode (getLongUrl s c).2.1 d =
            repoFindByShortCode s d) := by
  constructor
  · intro hnone
    simp [getLongUrl, hnone]
  · intro u hsome
    have hu : u.shortCode = c := by
      have h' : s.urls.find? (fun v => decide (v.shortCode = c)) = some u :=
        hsome
      have hpa := List.find?_some h'
      simp only [decide_eq_true_eq] at hpa
      exact hpa
    have hisSome : (repoFindByShortCode s c).isSome = true := by
      rw [hsome]; rfl
    have hinc : repoIncrementClicks s c = .ok
        { s with
          urls := s.urls.map (fun v =>
            if v.shortCode = c then
              { v with clicks := v.clicks + 1, updatedAt := s.now }
            else v),
          now := s.now + 1 } := by
      simp [repoIncrementClicks, hisSome]
    have hget : getLongUrl s c =
        (.ok (some u.longUrl),
         { s with
           urls := s.urls.map (fun v =>
             if v.shortCode = c then
               { v with clicks := v.clicks + 1, updatedAt := s.now }
             else v),
           now := s.now + 1 },
         [.findByShortCode c, .incrementClicks c]) := by
      simp [getLongUrl, hsome, hinc]
    have hshort : ∀ v : Url,
        (if v.shortCode = c then
          { v with clicks := v.clicks + 1, updatedAt := s.now }
         else v).shortCode = v.shortCode := by
      intro v
      by_cases h : v.shortCode = c <;> simp [h]
    refine ⟨by rw [hget], by rw [hget], ?_, ?_⟩
    · rw [hget]
      show (s.urls.map _).find? _ = _
      rw [find?_map_pres (fun v => by rw [hshort v]) s.urls]
      show (repoFindByShortCode s c).map _ = _
      rw [hsome]
      simp [hu]
    · intro d hd
      rw [hget]
      show (s.urls.map _).find? _ = repoFindByShortCode s d
      rw [find?_map_skip (fun v => by rw [hshort v]) ?_ s.urls]
      · rfl
      · intro v hv
        have hvd : v.shortCode = d := of_decide_eq_true hv
        have : ¬ v.shortCode = c := by rw [hvd]; exact hd
        simp [this]

/-- C3 witness: resolving an absent code on an empty store, and
resolving `"abc123"` on the demo store. -/
theorem claim3_witness :
    getLongUrl emptyStore "missing" =
      (.ok none, emptyStore, [.findByShortCode "missing"])
    ∧ (getLongUrl demoStore "abc123").1 = .ok (some "https://example.com") :=
  ⟨(claim3_resolve_click_tracking emptyStore "missing").1 rfl,
   ((claim3_resolve_click_tracking demoStore "abc123").2 demoUrl rfl).1⟩

/-- C2 counterexample: the empty string is a `customCode` that is not
present in the (empty) store, yet `createShortUrl` does not assign it
verbatim — JavaScript truthiness routes it to auto-generation and the
assigned code is `"uuuuuuuu"`. -/
theorem claim2_counterexample :
    repoFindByShortCode emptyStore "" = none
    ∧ (createShortUrl isURLModel "http://localhost:3000" zeroRng emptyStore
        "https://example.com" (some "")).1 =
      .ok { shortUrl := "http://localhost:3000" ++ "/" ++ "uuuuuuuu",
            longUrl := "https://example.com", shortCode := "uuuuuuuu" }
    ∧ ("uuuuuuuu" : String) ≠ "" := by
  have hmiss := generateUniqueCode_miss emptyStore zeroRng 0 (by norm_num) rfl
  have hurl : isURLModel "https://example.com" = true := by decide
  have hgen : generateShortCode emptyStore zeroRng (some "") =
      (.ok "uuuuuuuu", [.findByShortCode "uuuuuuuu"]) := by
    show generateUniqueCode emptyStore zeroRng 0 = _
    rw [hmiss]
    rfl
  have hnotsome : (repoFindByShortCode emptyStore "uuuuuuuu").isSome = false :=
    rfl
  refine ⟨rfl, ?_, by decide⟩
  simp [createShortUrl, hurl, hgen, repoCreate, hnotsome, newUrl]

/-- C2 (amended): for every supplied truthy (non-empty) `customCode`
not already present, `createShortUrl` assigns exactly that code
verbatim; for an already present one it fails with
`DuplicateCodeError`, the store is unchanged and the trace shows the
lookup only — the store's `create` is never invoked.  (An empty-string
`customCode` is discarded by truthiness and auto-generation runs
instead.) -/
theorem claim2_custom_code_verbatim_or_duplicate (isURL : String → Bool)
    (baseUrl : String) (rng : Nat → Nat → Nat) (s : Store)
    (longUrl c : String) (hvalid : isURL longUrl = true) (hc : c ≠ "") :
    (∀ u, repoFindByShortCode s c = some u →
      createShortUrl isURL baseUrl rng s longUrl (some c) =
        (.error .duplicateCode, s, [.findByShortCode c]))
    ∧ (repoFindByShortCode s c = none →
      createShortUrl isURL baseUrl rng s longUrl (some c) =
        (.ok { shortUrl := baseUrl ++ "/" ++ c, longUrl := longUrl,
               shortCode := c },
         afterCreate s longUrl c,
         [.findByShortCode c, .create longUrl c])) := by
  constructor
  · intro u hsome
    have hgen : generateShortCode s rng (some c) =
        (.error .duplicateCode, [.findByShortCode c]) := by
      simp [generateShortCode, hc, hsome]
    simp [createShortUrl, hvalid, hgen]
  · intro hnone
    have hgen : generateShortCode s rng (some c) =
        (.ok c, [.findByShortCode c]) := by
      simp [generateShortCode, hc, hnone]
    have hnotsome : (repoFindByShortCode s c).isSome = false := by
      rw [hnone]; rfl
    simp [createShortUrl, hvalid, hgen, repoCreate, hnotsome, newUrl]

/-- C2 witness: `"abc123"` is taken in the demo store and is refused
with `DuplicateCodeError` without creating anything; `"xyz9"` is free
and is assigned verbatim. -/
theorem claim2_witness :
    createShortUrl isURLModel "http://localhost:3000" zeroRng demoStore
      "https://example.com" (some "abc123") =
      (.error .duplicateCode, demoStore, [.findByShortCode "abc123"])
    ∧ createShortUrl isURLModel "http://localhost:3000" zeroRng demoStore
      "https://example.com" (some "xyz9") =
      (.ok { shortUrl := "http://localhost:3000" ++ "/" ++ "xyz9",
             longUrl := "https://example.com", shortCode := "xyz9" },
       afterCreate demoStore "https://example.com" "xyz9",
       [.findByShortCode "xyz9", .create "https://example.com" "xyz9"]) :=
  ⟨(claim2_custom_code_verbatim_or_duplicate isURLModel
      "http://localhost:3000" zeroRng demoStore "https://example.com"
      "abc123" (by decide) (by decide)).1 demoUrl rfl,
   (claim2_custom_code_verbatim_or_duplicate isURLModel
      "http://localhost:3000" zeroRng demoStore "https://example.com"
      "xyz9" (by decide) (by decide)).2 rfl⟩

/-- C10: an empty-string `customCode` is treated exactly as no
`customCode`: the service call is unchanged, the controller's truthy
spread drops the field, the code-assignment path is auto-generation,
and no duplicate lookup on `""` ever happens. -/
theorem claim10_empty_custom_code_ignored (isURL : String → Bool)
    (baseUrl : String) (rng : Nat → Nat → Nat) (s : Store)
    (longUrl : String)
    (svc : String → Option String → Except UrlError CreateUrlResponse) :
    createShortUrl isURL baseUrl rng s longUrl (some "") =
      createShortUrl isURL baseUrl rng s longUrl none
    ∧ controllerCreateShortUrl (some longUrl) (some "") svc =
        controllerCreateShortUrl (some longUrl) none svc
    ∧ generateShortCode s rng (some "") = generateUniqueCode s rng 0
    ∧ RepoOp.findByShortCode "" ∉ (generateShortCode s rng (some "")).2 := by
  refine ⟨rfl, rfl, rfl, ?_⟩
  intro hmem
  have hmem' : RepoOp.findByShortCode "" ∈ (generateUniqueCode s rng 0).2 :=
    hmem
  obtain ⟨i, -, -, heq⟩ := generateUniqueCode_ops_shape s rng 0 _ hmem'
  injection heq with h
  exact nanoid_ne_empty (rng i) h.symm

/-- C10 witness: concrete service calls with `customCode = ""` and with
no `customCode` coincide. -/
theorem claim10_witness :
    createShortUrl isURLModel "http://localhost:3000" zeroRng emptyStore
      "https://example.com" (some "") =
    createShortUrl isURLModel "http://localhost:3000" zeroRng emptyStore
      "https://example.com" none :=
  (claim10_empty_custom_code_ignored isURLModel "http://localhost:3000"
    zeroRng emptyStore "https://example.com"
    (fun _ _ => .error .invalidUrl)).1

/-- C1: for a `longUrl` accepted by the validator and no `customCode`,
whenever some generation attempt is fresh (which the spec notes is the
overwhelmingly likely case), `createShortUrl` succeeds with a code of
the fixed length 8 and resolving that code on the resulting store
returns exactly the stored `longUrl`. -/
theorem claim1_create_resolve_roundtrip (isURL : String → Bool)
    (baseUrl : String) (rng : Nat → Nat → Nat) (s : Store)
    (longUrl : String) (hvalid : isURL longUrl = true)
    (hfresh : ∃ i, i < 5 ∧
      repoFindByShortCode s (nanoid 8 (rng i)) = none) :
    ∃ code s2 t,
      createShortUrl isURL baseUrl rng s longUrl none =
        (.ok { shortUrl := baseUrl ++ "/" ++ code, longUrl := longUrl,
               shortCode := code }, s2, t)
      ∧ code.length = 8
      ∧ (getLongUrl s2 code).1 = .ok (some longUrl) := by
  obtain ⟨i, hi5, hifresh⟩ := hfresh
  obtain ⟨code, hok⟩ :=
    generateUniqueCode_ok_of_fresh s rng 0 ⟨i, Nat.zero_le _, hi5, hifresh⟩
  obtain ⟨hcodefresh, j, -, hj5, hcodeeq⟩ :=
    generateUniqueCode_ok_spec s rng 0 code hok
  have hcl : code.length = 8 := by
    rw [hcodeeq]
    exact nanoid_length 8 _
  have hgen : generateShortCode s rng none =
      (.ok code, (generateUniqueCode s rng 0).2) := by
    show generateUniqueCode s rng 0 = _
    rw [← hok]
  have hnotsome : (repoFindByShortCode s code).isSome = false := by
    rw [hcodefresh]; rfl
  have hcreate : createShortUrl isURL baseUrl rng s longUrl none =
      (.ok { shortUrl := baseUrl ++ "/" ++ code, longUrl := longUrl,
             shortCode := code },
       afterCreate s longUrl code,
       (generateUniqueCode s rng 0).2 ++ [.create longUrl code]) := by
    simp [createShortUrl, hvalid, hgen, repoCreate, hnotsome, newUrl]
  refine ⟨code, afterCreate s longUrl code,
    (generateUniqueCode s rng 0).2 ++ [.create longUrl code],
    hcreate, hcl, ?_⟩
  have hfind2 : repoFindByShortCode (afterCreate s longUrl code) code =
      some (newUrl s longUrl code) := by
    show (s.urls ++ [newUrl s longUrl code]).find? _ = _
    rw [List.find?_append]
    have h1 : s.urls.find? (fun v => decide (v.shortCode = code)) = none :=
      hcodefresh
    rw [h1, Option.none_or]
    exact List.find?_cons_of_pos _ (by simp [newUrl])
  have hisSome2 : (repoFindByShortCode
      (afterCreate s longUrl code) code).isSome = true := by
    rw [hfind2]; rfl
  simp [getLongUrl, hfind2, repoIncrementClicks, hisSome2, newUrl]

/-- C1 witness: creating a short URL for `"https://example.com"` on the
empty store and resolving it round-trips. -/
theorem claim1_witness :
    isURLModel "https://example.com" = true
    ∧ ∃ code s2 t,
        createShortUrl isURLModel "http://localhost:3000" zeroRng emptyStore
          "https://example.com" none =
          (.ok { shortUrl := "http://localhost:3000" ++ "/" ++ code,
                 longUrl := "https://example.com", shortCode := code },
           s2, t)
        ∧ code.length = 8
        ∧ (getLongUrl s2 code).1 = .ok (some "https://example.com") :=
  ⟨by decide,
   claim1_create_resolve_roundtrip isURLModel "http://localhost:3000"
     zeroRng emptyStore "https://example.com" (by decide)
     ⟨0, by norm_num, rfl⟩⟩

/-- C8 counterexample: at the create endpoint an unexpected store error
is answered with status 400 and the raw error message — not with a
generic 500 — refuting "500 with a generic message on every
endpoint". -/
theorem claim8_counterexample :
    controllerCreateShortUrl (some "https://example.com") none
      (fun _ _ => .error (.storeError "Database error")) =
      .jsonError 400 "Database error"
    ∧ (controllerCreateShortUrl (some "https://example.com") none
        (fun _ _ => .error (.storeError "Database error"))).status ≠ 500 := by
  decide

/-- C8 (amended): validation and duplicate errors surface as 400 at the
create endpoint; unknown-short-code reads map to 404; unexpected store
errors map to 500 with a generic, non-leaking message on the redirect,
stats and list endpoints — while the create endpoint maps every service
failure, store errors included, to 400 carrying the error's own
message. -/
theorem claim8_http_status_mapping (e : UrlError) (c l : String)
    (cc : Option String) (hc : c ≠ "") (hl : l ≠ "") :
    controllerRedirectToLongUrl (some c) (fun _ => .error e) =
      .jsonError 500 "Internal server error"
    ∧ controllerGetUrlStats (some c) (fun _ => .error e) =
        .jsonError 500 "Internal server error"
    ∧ controllerGetAllUrls (fun _ => .error e) =
        .jsonError 500 "Internal server error"
    ∧ controllerRedirectToLongUrl (some c) (fun _ => .ok none) =
        .jsonError 404 "Short URL not found"
    ∧ controllerGetUrlStats (some c) (fun _ => .ok none) =
        .jsonError 404 "Short URL not found"
    ∧ controllerCreateShortUrl (some l) cc (fun _ _ => .error e) =
        .jsonError 400 (errorMessage e) := by
  refine ⟨?_, ?_, rfl, ?_, ?_, ?_⟩ <;>
    simp [controllerRedirectToLongUrl, controllerGetUrlStats,
      controllerCreateShortUrl, hc, hl]

/-- C8 witness: concrete responses on each endpoint — 500 generic for a
store error on the list endpoint, 404 for an unknown code on the
redirect endpoint, and 400 with the duplicate message at the create
endpoint. -/
theorem claim8_witness :
    controllerGetAllUrls (fun _ => .error (.storeError "Database error")) =
      .jsonError 500 "Internal server error"
    ∧ controllerRedirectToLongUrl (some "abc123") (fun _ => .ok none) =
        .jsonError 404 "Short URL not found"
    ∧ controllerCreateShortUrl (some "https://example.com") none
        (fun _ _ => .error .duplicateCode) =
        .jsonError 400 "Custom code already exists" :=
  ⟨(claim8_http_status_mapping (.storeError "Database error") "abc123"
      "https://example.com" none (by decide) (by decide)).2.2.1,
   (claim8_http_status_mapping (.storeError "Database error") "abc123"
      "https://example.com" none (by decide) (by decide)).2.2.2.1,
   (claim8_http_status_mapping .duplicateCode "abc123"
      "https://example.com" none (by decide) (by decide)).2.2.2.2.2⟩

end ShortUrl
